import Mathlib

/-!
Verification development for the nordic-chess position core.

The TypeScript sources (constants.ts, funcs.ts, validator.ts, parser.ts,
chessgame.ts) are shallowly embedded below.  JavaScript runtime behaviour is
modelled explicitly:

* thrown exceptions become the `Except JsErr` monad; `JsErr.validation` models
  the ValidationError class, `JsErr.typeError` a TypeError raised by the
  runtime (for example reading a property of null), and `JsErr.error` a plain
  thrown Error;
* out-of-range array reads: all board reads reachable from the claims stay in
  range of the 120-cell array, and for board values every comparison made by
  the code distinguishes only EMPTY (0), OFFBOARD (100), and real pieces, so
  an out-of-range read is modelled by the default 100, which is observably
  equivalent to the undefined value of JavaScript in every comparison the
  code performs;
* `parseInt` returning NaN is modelled by `Option Int` with `none` for NaN;
  the parsed en-passant square, halfmove clock and fullmove number fields are
  `Option Int` for the same reason;
* strings are processed as `List Char`, matching the character-by-character
  semantics of the JavaScript string methods used by the source.

Unbounded while loops of the source (ray casting, the FEN rank scanner) are
given explicit fuel that exceeds any possible iteration count; running out of
fuel is a model-only error value that is never reached on inputs where the
JavaScript loop terminates within the bound.
-/

set_option maxRecDepth 4000

abbrev Str := List Char

deriving instance DecidableEq for Except

inductive JsErr where
  | validation : String → JsErr
  | typeError : String → JsErr
  | error : String → JsErr
deriving Repr, DecidableEq

def JsErr.message : JsErr → String
  | .validation m => m
  | .typeError m => m
  | .error m => m

/-- List lookup with an explicit default, used to model JavaScript array
indexing (the default plays the role of the undefined value, chosen so that
every comparison the source performs gives the same result). -/
def lookupD {α : Type} : List α → Nat → α → α
  | [], _, d => d
  | a :: _, 0, _ => a
  | _ :: t, n + 1, d => lookupD t n d

/-- List update at an index; out-of-range writes leave the list unchanged
(no claim-reachable code path writes out of range). -/
def lset {α : Type} : List α → Nat → α → List α
  | [], _, _ => []
  | _ :: t, 0, v => v :: t
  | a :: t, n + 1, v => a :: lset t n v

/-- JavaScript String.prototype.split with a single-character separator. -/
def splitChar : Str → Char → List Str
  | [], _ => [[]]
  | c :: t, sep =>
    match splitChar t sep with
    | [] => [[c]]
    | h :: rest => if c = sep then [] :: h :: rest else (c :: h) :: rest

def jsIsSpace (c : Char) : Bool :=
  c = ' ' || c = '\t' || c = '\n' || c = '\r'

/-- JavaScript String.prototype.trim (restricted to the whitespace characters
that can occur in the inputs of interest). -/
def jsTrim (l : Str) : Str :=
  ((l.dropWhile jsIsSpace).reverse.dropWhile jsIsSpace).reverse

def countChar (l : Str) (c : Char) : Nat :=
  (l.filter (fun x => x = c)).length

def digitVal (c : Char) : Nat := c.toNat - '0'.toNat

/-- JavaScript parseInt(str, 10) on a single character (or undefined, the
`none` argument): a digit parses to its value, anything else is NaN. -/
def parseIntChar : Option Char → Option Int
  | none => none
  | some c => if c.isDigit then some (digitVal c) else none

def takeDigits : Str → Str
  | [] => []
  | c :: t => if c.isDigit then c :: takeDigits t else []

def digitsToNat : Str → Nat
  | [] => 0
  | c :: t => digitVal c * 10 ^ t.length + digitsToNat t

/-- JavaScript parseInt(str, 10): optional leading whitespace and sign, then a
maximal digit prefix; NaN (`none`) when no digit is found. -/
def parseIntD (l : Str) : Option Int :=
  let l := l.dropWhile jsIsSpace
  match l with
  | '-' :: t => if takeDigits t = [] then none else some (-(digitsToNat (takeDigits t) : Int))
  | '+' :: t => if takeDigits t = [] then none else some (digitsToNat (takeDigits t))
  | _ => if takeDigits l = [] then none else some (digitsToNat (takeDigits l))

/-! ## constants.ts -/

def VARIANTS_UNKNOWN : Nat := 0
def VARIANTS_DEFAULT : Nat := 1

def FEN_START : Str := "rnbqkbnr/pppppppp/8/8/8/8/PPPPPPPP/RNBQKBNR w KQkq - 0 1".data

def PIECES_CHAR : Str := ".PNBRQKpnbrqk".data

def FILES_CHAR : Str := "abcdefgh".data

def BOARD_SIZE_SAFE : Nat := 120

-- PIECES: EMPTY 0, whitePawn 1 .. whiteKing 6, blackPawn 7 .. blackKing 12
def PIECES_EMPTY : Nat := 0
def SQUARES_OFFBOARD : Nat := 100

def COLORS_WHITE : Nat := 0
def COLORS_BLACK : Nat := 1
def COLORS_BOTH : Nat := 2

def CASTLEBITS_WKCA : Nat := 1
def CASTLEBITS_WQCA : Nat := 2
def CASTLEBITS_BKCA : Nat := 4
def CASTLEBITS_BQCA : Nat := 8

def MOVES_NORMAL : Nat := 0
def MOVES_EnPassant : Nat := 1
def MOVES_KingSideCastling : Nat := 2
def MOVES_QueenSideCastling : Nat := 3

def PieceColorTable : List Nat := [2, 0, 0, 0, 0, 0, 0, 1, 1, 1, 1, 1, 1]

/-- PieceColor[p]; the default 3 models the undefined value produced by an
index outside the table, which compares unequal to every color constant. -/
def PieceColorD (p : Nat) : Nat := lookupD PieceColorTable p 3

def PiecePawnTable : List Bool :=
  [false, true, false, false, false, false, false, true, false, false, false, false, false]

def PiecePawnD (p : Nat) : Bool := lookupD PiecePawnTable p false

def PieceKnightTable : List Bool :=
  [false, false, true, false, false, false, false, false, true, false, false, false, false]

def PieceKnightD (p : Nat) : Bool := lookupD PieceKnightTable p false

def PieceKingTable : List Bool :=
  [false, false, false, false, false, false, true, false, false, false, false, false, true]

def PieceKingD (p : Nat) : Bool := lookupD PieceKingTable p false

def PieceRookQueenTable : List Bool :=
  [false, false, false, false, true, true, false, false, false, false, true, true, false]

def PieceRookQueenD (p : Nat) : Bool := lookupD PieceRookQueenTable p false

def PieceBishopQueenTable : List Bool :=
  [false, false, false, true, false, true, false, false, false, true, false, true, false]

def PieceBishopQueenD (p : Nat) : Bool := lookupD PieceBishopQueenTable p false

def KnightDirections : List Int := [-8, -19, -21, -12, 8, 19, 21, 12]
def RookDirections : List Int := [-1, -10, 1, 10]
def BishopDirections : List Int := [-9, -11, 11, 9]
def KingDirections : List Int := [-1, -10, 1, 10, -9, -11, 11, 9]

def Sq120ToSq64 : List Nat :=
  [65, 65, 65, 65, 65, 65, 65, 65, 65, 65,
   65, 65, 65, 65, 65, 65, 65, 65, 65, 65,
   65,  0,  1,  2,  3,  4,  5,  6,  7, 65,
   65,  8,  9, 10, 11, 12, 13, 14, 15, 65,
   65, 16, 17, 18, 19, 20, 21, 22, 23, 65,
   65, 24, 25, 26, 27, 28, 29, 30, 31, 65,
   65, 32, 33, 34, 35, 36, 37, 38, 39, 65,
   65, 40, 41, 42, 43, 44, 45, 46, 47, 65,
   65, 48, 49, 50, 51, 52, 53, 54, 55, 65,
   65, 56, 57, 58, 59, 60, 61, 62, 63, 65,
   65, 65, 65, 65, 65, 65, 65, 65, 65, 65,
   65, 65, 65, 65, 65, 65, 65, 65, 65, 65]

/-- Board read at a (possibly negative) index; the default 100 stands in for
the undefined value of an out-of-range JavaScript array read (observably
equivalent in every comparison the source performs, see the header). -/
def bgetI (b : List Nat) (i : Int) : Nat :=
  if i < 0 then 100 else lookupD b i.toNat 100

def bsetI (b : List Nat) (i : Int) (v : Nat) : List Nat :=
  if i < 0 then b else lset b i.toNat v

/-- A 120-board index that denotes a real square (maps to 0..63, not to the
sentinel 65 of Sq120ToSq64). -/
def onBoardB (i : Int) : Bool :=
  0 ≤ i && i < 120 && lookupD Sq120ToSq64 i.toNat 65 ≠ 65

/-! ## funcs.ts -/

/-- funcs.ts Square2FileRank: the 120 index is first mapped through
Sq120ToSq64; the sentinel 65 raises an Error (whose message interpolates the
already-remapped value, hence the constant 65). -/
def Square2FileRank (sq : Int) : Except JsErr (Int × Int) :=
  let m : Nat := if sq < 0 then 65 else lookupD Sq120ToSq64 sq.toNat 65
  if m = 65 then .error (.error "Invalid square 65")
  else .ok ((m % 8 : Nat), (m / 8 : Nat))

/-- funcs.ts FileRank2Square: fails exactly on the NONE sentinel 8. -/
def FileRank2Square (f r : Int) : Except JsErr Int :=
  if f = 8 ∨ r = 8 then
    .error (.error ("Invalid file " ++ toString f ++ " or rank " ++ toString r))
  else .ok (21 + f + r * 10)

def Str2Piece : Option Char → Nat
  | some 'p' => 7
  | some 'r' => 10
  | some 'n' => 8
  | some 'b' => 9
  | some 'k' => 12
  | some 'q' => 11
  | some 'P' => 1
  | some 'R' => 4
  | some 'N' => 2
  | some 'B' => 3
  | some 'K' => 6
  | some 'Q' => 5
  | _ => 0

/-- funcs.ts oppositeColor: throws on BOTH, otherwise flips; every other
argument value takes the final else branch exactly as in the source ternary. -/
def oppColorE (c : Nat) : Except JsErr Nat :=
  if c = COLORS_BOTH then .error (.error "No opposite color for BOTH")
  else .ok (if c = COLORS_WHITE then COLORS_BLACK else COLORS_WHITE)

example : FileRank2Square 3 3 = .ok 54 := by decide
example : Square2FileRank 54 = .ok (3, 3) := by decide
example : Square2FileRank 20 = .error (.error "Invalid square 65") := by decide

/-! ## validator.ts -/

def isEmptyDigit (c : Char) : Bool := '1' ≤ c && c ≤ '8'

def boardClassChar (c : Char) : Bool :=
  c = 'r' || c = 'n' || c = 'b' || c = 'q' || c = 'k' || c = 'p' ||
  c = 'R' || c = 'N' || c = 'B' || c = 'Q' || c = 'K' || c = 'P' || isEmptyDigit c

def boardFieldOk (s : Str) : Bool :=
  let rows := splitChar s '/'
  rows.length = 8 && rows.all (fun row => !row.isEmpty && row.all boardClassChar)

/-- The castling alternation of the validation RegEx
(-|KQ?k?q?|K?Qk?q?|K?Q?kq?|K?Q?k?q): a dash or any non-empty subsequence of
KQkq, enumerated. -/
def castlingFieldOk (s : Str) : Bool :=
  (["-", "K", "Q", "k", "q", "KQ", "Kk", "Kq", "Qk", "Qq", "kq",
    "KQk", "KQq", "Kkq", "Qkq", "KQkq"].map String.data).contains s

def epFieldOk (s : Str) : Bool :=
  s = "-".data ||
    match s with
    | [a, b] => ('a' ≤ a && a ≤ 'h') && (b = '3' || b = '6')
    | _ => false

def digitsFieldOk (s : Str) : Bool := !s.isEmpty && s.all Char.isDigit

/-- The anchored validation RegEx of isValidFen, decided structurally: six
space-separated fields with the board field made of eight non-empty
slash-separated runs over [rnbqkpRNBQKP1-8], a side letter, the castling
alternation, a dash or [a-h][36] square, and two digit runs. -/
def fenRegexMatch (s : Str) : Bool :=
  match splitChar s ' ' with
  | [f0, f1, f2, f3, f4, f5] =>
    boardFieldOk f0 && (f1 = "b".data || f1 = "w".data) && castlingFieldOk f2 &&
      epFieldOk f3 && digitsFieldOk f4 && digitsFieldOk f5
  | _ => false

/-- Length of the board field after each digit 1..8 is replaced by that many
spaces (the row-sum check of the validator counts slashes as 1 each). -/
def rowSumLen : Str → Nat
  | [] => 0
  | c :: t => (if isEmptyDigit c then digitVal c else 1) + rowSumLen t

def hasConsecutiveEmpties : Str → Bool
  | a :: b :: t => (isEmptyDigit a && isEmptyDigit b) || hasConsecutiveEmpties (b :: t)
  | _ => false

def nullLengthMsg : String := "Cannot read properties of null (reading 'length')"

/-- JavaScript x > bound where x or the bound may be NaN: false on NaN. -/
def halfAboveBound (h f : Option Int) (blackIsNext : Bool) : Bool :=
  match h, f with
  | some h, some f => decide (h > (f - 1) * 2 + (if blackIsNext then 1 else 0))
  | _, _ => false

/-- JavaScript x < bound where x may be NaN: false on NaN. -/
def jsLtNum (x : Option Int) (bound : Int) : Bool :=
  match x with
  | some v => decide (v < bound)
  | none => false

/-- validator.ts isValidBoard: the semantic tier.  String.match with a /g
RegEx returns null when there is no occurrence, so reading .length of a
zero-occurrence match raises a TypeError, modelled by the count-zero
branches. -/
def isValidBoard (variant : Nat) (fields : List Str) : Except JsErr Bool :=
  if variant ≠ VARIANTS_DEFAULT then .error (.validation "Chess Variant not supported")
  else
    let f0 := lookupD fields 0 []
    if countChar f0 'k' = 0 then .error (.typeError nullLengthMsg)
    else if countChar f0 'k' ≠ 1 then .error (.validation "More than 1 king")
    else if countChar f0 'K' = 0 then .error (.typeError nullLengthMsg)
    else if countChar f0 'K' ≠ 1 then .error (.validation "More than 1 king")
    else if countChar f0 'p' = 0 then .error (.typeError nullLengthMsg)
    else if countChar f0 'p' > 8 then .error (.validation "More than 8 pawns")
    else if countChar f0 'P' = 0 then .error (.typeError nullLengthMsg)
    else if countChar f0 'P' > 8 then .error (.validation "More than 8 pawns")
    else if (lookupD (splitChar f0 '/') 0 []).any (fun c => c = 'p' || c = 'P') ||
        (lookupD (splitChar f0 '/') 7 []).any (fun c => c = 'p' || c = 'P') then
      .error (.validation "Pawn in first or last rank")
    else
      let halfMovesClock := parseIntD (lookupD fields 4 [])
      let fullMoves := parseIntD (lookupD fields 5 [])
      let blackIsNext := lookupD fields 1 [] = "b".data
      -- NaN comparisons: x !== 0 is true for NaN; NaN > y and NaN < y are false
      if lookupD fields 3 [] ≠ "-".data ∧ halfMovesClock ≠ some 0 then
        .error (.validation "Halfmove Clock must be 0 in case of en passant")
      else if halfAboveBound halfMovesClock fullMoves blackIsNext then
        .error (.validation "Invalid Halfmove Clock or Fullmoves Count")
      else if jsLtNum halfMovesClock 0 || jsLtNum fullMoves 1 then
        .error (.validation "Invalid Halfmove Clock or Fullmoves Count")
      else .ok true

/-- validator.ts isValidFen: structural tier (RegEx, 8 files, row sum 71, no
consecutive digits), then an early successful exit when the variant is
UNKNOWN, else the semantic tier. -/
def isValidFen (fen : Str) (variant : Nat) : Except JsErr Bool :=
  let fen := jsTrim fen
  if !fenRegexMatch fen then .error (.validation "FEN did not pass RegEx")
  else
    let fields := splitChar fen ' '
    if (splitChar (lookupD fields 0 []) '/').length ≠ 8 then
      .error (.validation "FEN does not have 8 files")
    else if rowSumLen (lookupD fields 0 []) ≠ 71 then
      .error (.validation "FEN has invalid row sum")
    else if hasConsecutiveEmpties (lookupD fields 0 []) then
      .error (.validation "FEN has consecutive 'empty' numbers")
    else if variant = VARIANTS_UNKNOWN then .ok true
    else isValidBoard variant fields

/-! ## parser.ts -/

def fileOfUpperChar (c : Char) : Option Int :=
  if c = 'A' then some 0 else if c = 'B' then some 1
  else if c = 'C' then some 2 else if c = 'D' then some 3
  else if c = 'E' then some 4 else if c = 'F' then some 5
  else if c = 'G' then some 6 else if c = 'H' then some 7
  else none

def rankOfChar (c : Char) : Option Int :=
  if c = '1' then some 0 else if c = '2' then some 1
  else if c = '3' then some 2 else if c = '4' then some 3
  else if c = '5' then some 4 else if c = '6' then some 5
  else if c = '7' then some 6 else if c = '8' then some 7
  else none

/-- parser.ts Fen2EnPassant: a dash maps to 0, otherwise the FILES/RANKS
table lookups feed FileRank2Square.  The table values are 0..7 so its
sentinel test cannot fire; an unknown character gives the undefined value
whose arithmetic yields NaN, modelled by `none`. -/
def Fen2EnPassant (s : Str) : Option Int :=
  if s = "-".data then some 0
  else
    match (match s.get? 0 with | none => none | some c => fileOfUpperChar c.toUpper),
        (match s.get? 1 with | none => none | some c => rankOfChar c) with
    | some f, some r => some (21 + f + r * 10)
    | _, _ => none

def Fen2Castling (s : Str) : Nat :=
  s.foldl (fun acc c =>
    if c = 'K' then acc ||| CASTLEBITS_WKCA
    else if c = 'Q' then acc ||| CASTLEBITS_WQCA
    else if c = 'k' then acc ||| CASTLEBITS_BKCA
    else if c = 'q' then acc ||| CASTLEBITS_BQCA
    else acc) 0

def Castling2Fen (c : Nat) : Str :=
  let s := (if c &&& CASTLEBITS_WKCA ≠ 0 then "K".data else []) ++
    (if c &&& CASTLEBITS_WQCA ≠ 0 then "Q".data else []) ++
    (if c &&& CASTLEBITS_BKCA ≠ 0 then "k".data else []) ++
    (if c &&& CASTLEBITS_BQCA ≠ 0 then "q".data else [])
  if s = [] then "-".data else s

/-- The inner counter loop of Fen2Board: writes `k` consecutive EMPTY cells
starting at file `f` of rank `r`, each through FileRank2Square (which throws
when the file reaches the sentinel 8). -/
def fillRun (r : Int) : List Nat → Int → Nat → Except JsErr (List Nat)
  | b, _, 0 => .ok b
  | b, f, k + 1 => do
    let w ← FileRank2Square f r
    fillRun r (bsetI b w 0) (f + 1) k

/-- The per-rank while loop of Fen2Board (fuel-bounded; each iteration
advances charPos, so rank length plus ten iterations always suffice). -/
def rankScan (chars : Str) (r : Int) : Nat → List Nat → Int → Nat → Except JsErr (List Nat)
  | 0, _, _, _ => .error (.error "model fuel exhausted")
  | fuel + 1, b, fileIndex, charPos =>
    if fileIndex ≤ 7 then
      match parseIntChar (chars.get? charPos) with
      | none => do
        let w ← FileRank2Square fileIndex r
        rankScan chars r fuel (bsetI b w (Str2Piece (chars.get? charPos))) (fileIndex + 1) (charPos + 1)
      | some d => do
        let b2 ← fillRun r b fileIndex d.toNat
        rankScan chars r fuel b2 (fileIndex + d) (charPos + 1)
    else .ok b

def procRanks : List Str → Int → List Nat → Except JsErr (List Nat)
  | [], _, b => .ok b
  | rk :: rest, idx, b => do
    let b2 ← rankScan rk idx (rk.length + 10) b 0 0
    procRanks rest (idx + 1) b2

/-- parser.ts Fen2Board: a 120-cell array filled with OFFBOARD, then the
slash-separated ranks (reversed, FEN starts at rank 8) are scanned. -/
def Fen2Board (s : Str) : Except JsErr (List Nat) :=
  procRanks (splitChar s '/').reverse 0 (List.replicate 120 100)

def natRepr (n : Nat) : Str := (toString n).data

def intRepr (i : Int) : Str := (toString i).data

/-- JavaScript number-to-string as performed by Array.join; NaN prints as
NaN. -/
def jsNumStr : Option Int → Str
  | none => "NaN".data
  | some v => intRepr v

/-- PIECES_CHAR[piece]; an index outside the string gives the undefined
value, which += renders as the text undefined. -/
def piecesCharStr (p : Nat) : Str :=
  if p < 13 then [lookupD PIECES_CHAR p '.'] else "undefined".data

def b2fFiles (b : List Nat) (r : Int) : Nat → Int → Nat → Str → Except JsErr Str
  | 0, _, emptyCount, acc => .ok (if emptyCount > 0 then acc ++ natRepr emptyCount else acc)
  | n + 1, f, emptyCount, acc => do
    let sqi ← FileRank2Square f r
    let piece := bgetI b sqi
    if piece = 0 then b2fFiles b r n (f + 1) (emptyCount + 1) acc
    else
      let acc2 := (if emptyCount > 0 then acc ++ natRepr emptyCount else acc) ++ piecesCharStr piece
      b2fFiles b r n (f + 1) 0 acc2

def b2fRanks (b : List Nat) : Nat → Except JsErr (List Str)
  | 0 => .ok []
  | k + 1 => do
    let row ← b2fFiles b (k : Int) 8 0 0 []
    let rest ← b2fRanks b k
    .ok (row :: rest)

def joinChar (sep : Char) : List Str → Str
  | [] => []
  | [x] => x
  | x :: xs => x ++ sep :: joinChar sep xs

/-- parser.ts Board2Fen (the implemented version of the TypeScript parser):
ranks 8 down to 1, run-length encoding empties. -/
def Board2Fen (b : List Nat) : Except JsErr Str := do
  let rows ← b2fRanks b 8
  .ok (joinChar '/' rows)

structure FenImportResult where
  board : List Nat
  color : Nat
  castlingAvailability : Nat
  enPassantSquare : Option Int
  halfMoveClock : Option Int
  fullMoveNumber : Option Int
deriving Repr, DecidableEq

/-- parser.ts importFen: isValidFen runs on the trimmed string inside a
try/catch whose catch returns the message of whatever was thrown; the field
extraction then splits the UNTRIMMED string.  An exception thrown by
Fen2Board is outside the try and propagates to the caller (`.error`). -/
def importFen (fen : Str) : Except JsErr (Sum String FenImportResult) :=
  match isValidFen (jsTrim fen) VARIANTS_UNKNOWN with
  | .error e => .ok (.inl e.message)
  | .ok _ =>
    let fields := splitChar fen ' '
    match Fen2Board (lookupD fields 0 []) with
    | .error e => .error e
    | .ok b =>
      .ok (.inr {
        board := b
        color := if lookupD fields 1 [] = "w".data then COLORS_WHITE else COLORS_BLACK
        castlingAvailability := Fen2Castling (lookupD fields 2 [])
        enPassantSquare := Fen2EnPassant (lookupD fields 3 [])
        halfMoveClock := parseIntD (lookupD fields 4 [])
        fullMoveNumber := parseIntD (lookupD fields 5 []) })

/-- parser.ts exportFen: joins the six fields with spaces.  The en-passant
field is the raw number `enPassant` (not an algebraic square name), exactly
as in the source. -/
def exportFen (board : List Nat) (color : Nat) (castlingAvailability : Nat)
    (enPassant : Option Int) (halfMoveClock : Option Int) (fullMoveNumber : Option Int) :
    Except JsErr Str := do
  let bs ← Board2Fen board
  .ok (joinChar ' ' [bs, (if color = COLORS_WHITE then "w" else "b").data,
    Castling2Fen castlingAvailability, jsNumStr enPassant, jsNumStr halfMoveClock,
    jsNumStr fullMoveNumber])

/-! ## chessgame.ts -/

structure Pos where
  error : Option String
  board : List Nat
  color : Nat
  castlingAvailability : Nat
  enPassantSquare : Option Int
  halfMoveClock : Option Int
  fullMoveNumber : Option Int
deriving Repr, DecidableEq

/-- chessgame.ts ChessPosition constructor: an empty fen argument defaults to
the starting FEN; an importFen error string puts the object in an error state
with zeroed fields; an exception thrown by importFen propagates.  The
auxiliary piecesValue/piecesCount/pieceList arrays are initialised but never
read by any operation modelled here, so they are omitted. -/
def ChessPositionMk (fen : Str) : Except JsErr Pos :=
  let fen := if fen = [] then FEN_START else fen
  match importFen fen with
  | .error e => .error e
  | .ok (.inl msg) =>
    .ok { error := some msg, board := [], color := 0, castlingAvailability := 0,
          enPassantSquare := some 0, halfMoveClock := some 0, fullMoveNumber := some 0 }
  | .ok (.inr r) =>
    .ok { error := none, board := r.board, color := r.color,
          castlingAvailability := r.castlingAvailability,
          enPassantSquare := r.enPassantSquare, halfMoveClock := r.halfMoveClock,
          fullMoveNumber := r.fullMoveNumber }

/-- Convenience accessor for stating claims at concrete FEN strings whose
construction succeeds; the fallback branch is never reached in any theorem
below. -/
def posOfFen (fen : Str) : Pos :=
  match ChessPositionMk fen with
  | .ok p => p
  | .error _ =>
    { error := some "thrown", board := [], color := 0, castlingAvailability := 0,
      enPassantSquare := some 0, halfMoveClock := some 0, fullMoveNumber := some 0 }

/-- The FenImportResult success branch of the constructor as a Position. -/
def toPos (r : FenImportResult) : Pos :=
  { error := none, board := r.board, color := r.color,
    castlingAvailability := r.castlingAvailability,
    enPassantSquare := r.enPassantSquare, halfMoveClock := r.halfMoveClock,
    fullMoveNumber := r.fullMoveNumber }

/-- chessgame.ts getMoveType: a king moving two files is a castle; a pawn
moving diagonally onto an empty square is an en-passant capture; otherwise
normal. -/
def getMoveTypeE (p : Pos) (m : Int × Int) : Except JsErr Nat := do
  let piece := bgetI p.board m.1
  if PieceKingD piece then
    let sfr ← Square2FileRank m.1
    let dfr ← Square2FileRank m.2
    if (dfr.1 - sfr.1).natAbs = 2 then
      if dfr.1 > sfr.1 then return MOVES_KingSideCastling
      else return MOVES_QueenSideCastling
  if PiecePawnD piece && bgetI p.board m.2 = 0 then
    let dfr ← Square2FileRank m.2
    let sfr ← Square2FileRank m.1
    if dfr.1 ≠ sfr.1 then return MOVES_EnPassant
  return MOVES_NORMAL

/-- Clears the single castling bit `mask` as the JavaScript expression
c &= ~mask does. -/
def clearCastle (c mask : Nat) : Nat := c - (c &&& mask)

def jsInc : Option Int → Option Int
  | none => none
  | some v => some (v + 1)

/-- chessgame.ts ChessPosition.move, with the in-place mutations threaded as
successive board values.  Throws (without any mutation) when the source
square is empty; all later steps mirror the statement order of the source. -/
def ChessPosition.move (p : Pos) (m : Int × Int) : Except JsErr Pos := do
  if bgetI p.board m.1 = PIECES_EMPTY then
    throw (.error ("No piece on Square " ++ toString m.1))
  let piece := bgetI p.board m.1
  let destination := bgetI p.board m.2
  let moveType ← getMoveTypeE p m
  -- en passant capture: remove the captured pawn behind the destination
  let b1 :=
    if moveType = MOVES_EnPassant then
      bsetI p.board (if p.color = COLORS_WHITE then m.2 - 10 else m.2 + 10) PIECES_EMPTY
    else p.board
  -- castling: relocate the rook
  let b2 ←
    if moveType = MOVES_KingSideCastling then do
      let rookSrc ← FileRank2Square 7 (if p.color = COLORS_WHITE then 0 else 7)
      let rookDst ← FileRank2Square 5 (if p.color = COLORS_WHITE then 0 else 7)
      pure (bsetI (bsetI b1 rookDst (bgetI b1 rookSrc)) rookSrc PIECES_EMPTY)
    else if moveType = MOVES_QueenSideCastling then do
      let rookSrc ← FileRank2Square 0 (if p.color = COLORS_WHITE then 0 else 7)
      let rookDst ← FileRank2Square 3 (if p.color = COLORS_WHITE then 0 else 7)
      pure (bsetI (bsetI b1 rookDst (bgetI b1 rookSrc)) rookSrc PIECES_EMPTY)
    else pure b1
  -- move the piece
  let b3 := bsetI (bsetI b2 m.1 PIECES_EMPTY) m.2 piece
  -- update castling availability for the mover
  let ca1 ←
    if PieceKingD piece then
      pure (if p.color = COLORS_WHITE then
          clearCastle (clearCastle p.castlingAvailability CASTLEBITS_WKCA) CASTLEBITS_WQCA
        else
          clearCastle (clearCastle p.castlingAvailability CASTLEBITS_BKCA) CASTLEBITS_BQCA)
    else if PieceRookQueenD piece && !PieceBishopQueenD piece then do
      let sfr ← Square2FileRank m.1
      pure (if p.color = COLORS_WHITE then
          (if sfr.1 = 7 then clearCastle p.castlingAvailability CASTLEBITS_WKCA
           else if sfr.1 = 0 then clearCastle p.castlingAvailability CASTLEBITS_WQCA
           else p.castlingAvailability)
        else
          (if sfr.1 = 7 then clearCastle p.castlingAvailability CASTLEBITS_BKCA
           else if sfr.1 = 0 then clearCastle p.castlingAvailability CASTLEBITS_BQCA
           else p.castlingAvailability))
    else pure p.castlingAvailability
  -- opponent castling rights lost when a rook is captured on its home file
  let ca2 ←
    if destination ≠ PIECES_EMPTY && PieceRookQueenD destination then do
      let dfr ← Square2FileRank m.2
      pure (if PieceColorD destination = COLORS_WHITE then
          (if dfr.1 = 7 then clearCastle ca1 CASTLEBITS_WKCA
           else if dfr.1 = 0 then clearCastle ca1 CASTLEBITS_WQCA
           else ca1)
        else
          (if dfr.1 = 7 then clearCastle ca1 CASTLEBITS_BKCA
           else if dfr.1 = 0 then clearCastle ca1 CASTLEBITS_BQCA
           else ca1))
    else pure ca1
  -- en passant square: midpoint of a pawn double step, else 0
  let newEp ←
    if PiecePawnD piece then do
      let sfr ← Square2FileRank m.1
      let dfr ← Square2FileRank m.2
      if (dfr.2 - sfr.2).natAbs = 2 then
        FileRank2Square dfr.1 ((sfr.2 + dfr.2) / 2)
      else pure 0
    else pure 0
  -- halfmove clock resets on pawn move or capture
  let half := if PiecePawnD piece || destination ≠ PIECES_EMPTY then some (0 : Int)
    else jsInc p.halfMoveClock
  let full := if p.color = COLORS_BLACK then jsInc p.fullMoveNumber else p.fullMoveNumber
  let newColor ← oppColorE p.color
  pure { error := p.error, board := b3, color := newColor, castlingAvailability := ca2,
         enPassantSquare := some newEp, halfMoveClock := half, fullMoveNumber := full }

/-- One ray of the rook/bishop loops of isSquareAttacked: step in `dir` from
`t`, skipping empties, and test the first non-empty cell with `pred` and the
attacking color.  Fuel 130 exceeds any possible ray length on the 120-cell
array. -/
def rayAttack (b : List Nat) (color : Nat) (pred : Nat → Bool) (dir : Int) :
    Nat → Int → Bool
  | 0, _ => false
  | fuel + 1, t =>
    let piece := bgetI b t
    if piece = SQUARES_OFFBOARD then false
    else if piece ≠ PIECES_EMPTY then pred piece && PieceColorD piece = color
    else rayAttack b color pred dir fuel (t + dir)

/-- chessgame.ts isSquareAttacked after its BOTH guard: pawns by the two
attack offsets, knights and kings by offset tables, rooks/queens and
bishops/queens by ray casting. -/
def isSquareAttackedB (b : List Nat) (sq : Int) (color : Nat) : Bool :=
  (if color = COLORS_WHITE then
      bgetI b (sq - 11) = 1 || bgetI b (sq - 9) = 1
    else
      bgetI b (sq + 11) = 7 || bgetI b (sq + 9) = 7) ||
  KnightDirections.any (fun d =>
    let piece := bgetI b (sq + d)
    piece ≠ SQUARES_OFFBOARD && PieceColorD piece = color && PieceKnightD piece) ||
  RookDirections.any (fun dir => rayAttack b color PieceRookQueenD dir 130 (sq + dir)) ||
  BishopDirections.any (fun dir =>
    rayAttack b color PieceBishopQueenD dir 130 (sq + dir)) ||
  KingDirections.any (fun d =>
    let piece := bgetI b (sq + d)
    piece ≠ SQUARES_OFFBOARD && PieceColorD piece = color && PieceKingD piece)

/-- chessgame.ts isSquareAttacked including the BOTH guard. -/
def isSquareAttacked (b : List Nat) (sq : Int) (color : Nat) : Except JsErr Bool :=
  if color = COLORS_BOTH then .error (.error "Color must be black or white")
  else .ok (isSquareAttackedB b sq color)

/-- The sliding-piece generation loop shared verbatim by the bishop, rook and
queen branches of getPossibleSquares: push every empty square along the ray,
push and stop on an enemy piece, stop on anything else. -/
def slideRay (b : List Nat) (sq : Int) (oppc : Nat) (dir : Int) :
    Nat → Int → List (Int × Int)
  | 0, _ => []
  | fuel + 1, t =>
    let piece := bgetI b t
    if piece = SQUARES_OFFBOARD then []
    else if piece = PIECES_EMPTY then (sq, t) :: slideRay b sq oppc dir fuel (t + dir)
    else if PieceColorD piece = oppc then [(sq, t)]
    else []

def slideAll (b : List Nat) (sq : Int) (oppc : Nat) (dirs : List Int) : List (Int × Int) :=
  dirs.foldr (fun dir acc => slideRay b sq oppc dir 130 (sq + dir) ++ acc) []

/-- Condition 0 of the pawn forEach (direction 10): one step forward onto an
empty square; on success the promotion-rank test calls Square2FileRank on the
destination before the push. -/
def pawnCond1 (p : Pos) (sq mult : Int) : Except JsErr (List (Int × Int)) :=
  if bgetI p.board (sq + mult * 10) ≠ SQUARES_OFFBOARD &&
      bgetI p.board (sq + mult * 10) = PIECES_EMPTY then do
    let _ ← Square2FileRank (sq + mult * 10)
    pure [(sq, sq + mult * 10)]
  else pure []

/-- Condition 1 (direction 20): two steps forward from the home rank, both
cells empty; `sfr` is the file/rank of the source square, which the source
condition computes via Square2FileRank. -/
def pawnCond2 (p : Pos) (sq mult : Int) (colorOfPiece : Nat) (sfr : Int × Int) :
    Except JsErr (List (Int × Int)) :=
  if ((colorOfPiece = COLORS_WHITE && sfr.2 = 1) ||
        (colorOfPiece = COLORS_BLACK && sfr.2 = 6)) &&
      bgetI p.board (sq + mult * 10) = PIECES_EMPTY &&
      bgetI p.board (sq + mult * 20) = PIECES_EMPTY then do
    let _ ← Square2FileRank (sq + mult * 20)
    pure [(sq, sq + mult * 20)]
  else pure []

/-- Conditions 2 and 3 (directions 11 and 9): diagonal captures onto a square
holding an enemy piece. -/
def pawnCapture (p : Pos) (sq mult off : Int) (oppc : Nat) :
    Except JsErr (List (Int × Int)) :=
  if bgetI p.board (sq + mult * off) ≠ SQUARES_OFFBOARD &&
      bgetI p.board (sq + mult * off) ≠ PIECES_EMPTY &&
      PieceColorD (bgetI p.board (sq + mult * off)) = oppc then do
    let _ ← Square2FileRank (sq + mult * off)
    pure [(sq, sq + mult * off)]
  else pure []

/-- The en-passant block of the pawn branch.  A NaN en-passant square
(`none`) enters the block (NaN is not 0), where its file/rank reads yield NaN
so the adjacent-file test fails and nothing is generated; the Square2FileRank
call on the pawn square still happens.  The destination square occupancy is
never examined. -/
def pawnEp (p : Pos) (sq : Int) (colorOfPiece oppc : Nat) :
    Except JsErr (List (Int × Int)) :=
  match p.enPassantSquare with
  | none => do
    let _ ← Square2FileRank sq
    pure []
  | some ep =>
    if ep ≠ 0 then do
      let epfr ← Square2FileRank ep
      let pfr ← Square2FileRank sq
      let correctRank := (colorOfPiece = COLORS_WHITE && pfr.2 = 4) ||
        (colorOfPiece = COLORS_BLACK && pfr.2 = 3)
      let adjacentFile := (epfr.1 - pfr.1).natAbs = 1
      if correctRank && adjacentFile then
        let captureSquare := if colorOfPiece = COLORS_WHITE then ep + 10 else ep - 10
        if bgetI p.board captureSquare ≠ PIECES_EMPTY &&
            PiecePawnD (bgetI p.board captureSquare) &&
            PieceColorD (bgetI p.board captureSquare) = oppc then
          pure [(sq, ep)]
        else pure []
      else pure []
    else pure []

/-- The pawn branch of getPossibleSquares: the forEach over the direction
list [10, 20, 11, 9] followed by the en-passant block, in source order. -/
def pawnMoves (p : Pos) (sq : Int) (piece : Nat) : Except JsErr (List (Int × Int)) := do
  let colorOfPiece := PieceColorD piece
  let mult : Int := if colorOfPiece = COLORS_WHITE then 1 else -1
  let oppc ← oppColorE colorOfPiece
  let a1 ← pawnCond1 p sq mult
  let sfr ← Square2FileRank sq
  let a2 ← pawnCond2 p sq mult colorOfPiece sfr
  let a3 ← pawnCapture p sq mult 11 oppc
  let a4 ← pawnCapture p sq mult 9 oppc
  let a5 ← pawnEp p sq colorOfPiece oppc
  pure (a1 ++ a2 ++ a3 ++ a4 ++ a5)

/-- The castling appendix of the king branch: each castle is offered when the
right is set, the intervening squares are empty, the rook is on its home
square, and neither the king square, the transit square nor the destination
is attacked.  The attacked-color arguments are the constants BLACK/WHITE, so
the BOTH guard of isSquareAttacked cannot fire and the pure body is used. -/
def castleMoves (p : Pos) (sq : Int) (colorOfPiece : Nat) : Except JsErr (List (Int × Int)) := do
  if colorOfPiece = COLORS_WHITE then do
    let f1 ← FileRank2Square 5 0
    let g1 ← FileRank2Square 6 0
    let h1 ← FileRank2Square 7 0
    let ks ←
      if p.castlingAvailability &&& CASTLEBITS_WKCA ≠ 0 &&
          bgetI p.board f1 = PIECES_EMPTY && bgetI p.board g1 = PIECES_EMPTY &&
          bgetI p.board h1 = 4 &&
          !isSquareAttackedB p.board sq COLORS_BLACK &&
          !isSquareAttackedB p.board f1 COLORS_BLACK &&
          !isSquareAttackedB p.board g1 COLORS_BLACK then
        pure [(sq, g1)]
      else pure []
    let b1 ← FileRank2Square 1 0
    let c1 ← FileRank2Square 2 0
    let d1 ← FileRank2Square 3 0
    let a1 ← FileRank2Square 0 0
    let qs ←
      if p.castlingAvailability &&& CASTLEBITS_WQCA ≠ 0 &&
          bgetI p.board b1 = PIECES_EMPTY && bgetI p.board c1 = PIECES_EMPTY &&
          bgetI p.board d1 = PIECES_EMPTY &&
          bgetI p.board a1 = 4 &&
          !isSquareAttackedB p.board sq COLORS_BLACK &&
          !isSquareAttackedB p.board d1 COLORS_BLACK &&
          !isSquareAttackedB p.board c1 COLORS_BLACK then
        pure [(sq, c1)]
      else pure []
    pure (ks ++ qs)
  else do
    let f8 ← FileRank2Square 5 7
    let g8 ← FileRank2Square 6 7
    let h8 ← FileRank2Square 7 7
    let ks ←
      if p.castlingAvailability &&& CASTLEBITS_BKCA ≠ 0 &&
          bgetI p.board f8 = PIECES_EMPTY && bgetI p.board g8 = PIECES_EMPTY &&
          bgetI p.board h8 = 10 &&
          !isSquareAttackedB p.board sq COLORS_WHITE &&
          !isSquareAttackedB p.board f8 COLORS_WHITE &&
          !isSquareAttackedB p.board g8 COLORS_WHITE then
        pure [(sq, g8)]
      else pure []
    let b8 ← FileRank2Square 1 7
    let c8 ← FileRank2Square 2 7
    let d8 ← FileRank2Square 3 7
    let a8 ← FileRank2Square 0 7
    let qs ←
      if p.castlingAvailability &&& CASTLEBITS_BQCA ≠ 0 &&
          bgetI p.board b8 = PIECES_EMPTY && bgetI p.board c8 = PIECES_EMPTY &&
          bgetI p.board d8 = PIECES_EMPTY &&
          bgetI p.board a8 = 10 &&
          !isSquareAttackedB p.board sq COLORS_WHITE &&
          !isSquareAttackedB p.board d8 COLORS_WHITE &&
          !isSquareAttackedB p.board c8 COLORS_WHITE then
        pure [(sq, c8)]
      else pure []
    pure (ks ++ qs)

/-- chessgame.ts getPossibleSquares: guards for offboard/empty squares, then
one branch per piece class in source order (pawn, knight, bishop, rook,
queen, king), falling through to the empty list.  The oppositeColor calls of
the source happen inside branches whose piece is never EMPTY, the only value
with color BOTH, so hoisting the call to the top of each branch preserves the
throw behaviour. -/
def getPossibleSquares (p : Pos) (sq : Int) : Except JsErr (List (Int × Int)) := do
  let piece := bgetI p.board sq
  let colorOfPiece := PieceColorD piece
  if piece = SQUARES_OFFBOARD then throw (.error "Square is offboard")
  else if piece = PIECES_EMPTY then throw (.error "Square is empty")
  else if PiecePawnD piece then pawnMoves p sq piece
  else if PieceKnightD piece then do
    let oppc ← oppColorE colorOfPiece
    pure ((KnightDirections.filter (fun dir =>
      bgetI p.board (sq + dir) = PIECES_EMPTY ||
        PieceColorD (bgetI p.board (sq + dir)) = oppc)).map (fun dir => (sq, sq + dir)))
  else if PieceBishopQueenD piece && !PieceRookQueenD piece then do
    let oppc ← oppColorE colorOfPiece
    pure (slideAll p.board sq oppc BishopDirections)
  else if PieceRookQueenD piece && !PieceBishopQueenD piece then do
    let oppc ← oppColorE colorOfPiece
    pure (slideAll p.board sq oppc RookDirections)
  else if PieceRookQueenD piece && PieceBishopQueenD piece then do
    let oppc ← oppColorE colorOfPiece
    pure (slideAll p.board sq oppc RookDirections ++ slideAll p.board sq oppc BishopDirections)
  else if PieceKingD piece then do
    let oppc ← oppColorE colorOfPiece
    let base := (KingDirections.filter (fun dir =>
      bgetI p.board (sq + dir) ≠ SQUARES_OFFBOARD &&
        (bgetI p.board (sq + dir) = PIECES_EMPTY ||
          PieceColorD (bgetI p.board (sq + dir)) = oppc))).map (fun dir => (sq, sq + dir))
    let cast ← castleMoves p sq colorOfPiece
    pure (base ++ cast)
  else pure []

/-! ## Definitions used in the claim statements -/

def exceptOk {ε α : Type} : Except ε α → Bool
  | .ok _ => true
  | .error _ => false

/-- importFen returned a successfully parsed position (not an error string
and not a thrown exception). -/
def importOk (fen : Str) : Bool :=
  match importFen fen with
  | .ok (.inr _) => true
  | _ => false

/-- serialize after parse: the composition the round-trip law speaks about. -/
def exportAfterImport (fen : Str) : Option Str :=
  match importFen fen with
  | .ok (.inr r) =>
    (exportFen r.board r.color r.castlingAvailability r.enPassantSquare
      r.halfMoveClock r.fullMoveNumber).toOption
  | _ => none

/-- Space-separated field `i` of a FEN string. -/
def fenField (s : Str) (i : Nat) : Str := lookupD (splitChar s ' ') i []

def fenKingless : Str := "8/8/8/8/8/8/8/8 w - - 0 1".data
def fenBadRowSum : Str := "p8/7/8/8/8/8/8/8 w - - 0 1".data
def fenEpCapture : Str := "rnbqkbnr/ppp1pppp/8/3pP3/8/8/PPPP1PPP/RNBQKBNR w KQkq d6 0 3".data
def fenCastleBoth : Str := "r3k2r/8/8/8/8/8/8/R3K2R w KQkq - 0 1".data
def fenRookD4 : Str := "8/8/8/8/3R4/8/8/8 w - - 0 1".data
def fenEpOccupied : Str := "8/4p3/4N3/3P4/8/8/8/8 w - e6 0 1".data

def rookD4Board : List Nat := (posOfFen fenRookD4).board

/-- Border cells (and out-of-range reads) of a board hold the OFFBOARD
sentinel: the invariant Fen2Board establishes. -/
def INV (b : List Nat) : Prop := ∀ i : Int, onBoardB i = false → bgetI b i = 100

/-- The shape of a parsed en-passant square: NaN, the none marker 0, or a
real on-board square. -/
def epOK (o : Option Int) : Prop :=
  o = none ∨ o = some 0 ∨ ∃ v, o = some v ∧ onBoardB v = true

/-! ## Claim theorems -/

/-- C1: For every FEN string that passes validation, exportFen applied to the
fields of importFen's result should reproduce the input field for field, with
the en-passant square in algebraic notation.  Evaluated at the failing input
below: the input passes validation and its en-passant field is d6, but
exportFen emits the raw internal square number 74 in that field (and the
whole output fails to be a FEN string of the required shape), because the
source joins the bare `enPassant` number instead of an algebraic name. -/
theorem C1_export_emits_raw_ep_square :
    isValidFen fenEpCapture VARIANTS_UNKNOWN = .ok true ∧
    fenField fenEpCapture 3 = "d6".data ∧
    exportAfterImport fenEpCapture =
      some "rnbqkbnr/ppp1pppp/8/3pP3/8/8/PPPP1PPP/RNBQKBNR w KQkq 74 0 3".data ∧
    (exportAfterImport fenEpCapture).map (fun s => fenField s 3) = some "74".data ∧
    "74".data ≠ "d6".data := by decide

/-- C2 counterexample: isValidFen on the kingless FEN, with the UNKNOWN
variant that is both the default and what importFen passes, returns true
rather than failing with a king-count violation, and importFen parses the
input successfully. -/
theorem C2_ce_kingless_fen_accepted :
    isValidFen fenKingless VARIANTS_UNKNOWN = .ok true ∧
    importOk fenKingless = true := by decide

/-- C2 amended: validating the kingless FEN with the unknown variant (the
default, and the variant importFen uses) succeeds because all semantic checks
including the king count are skipped, so importFen accepts the position; only
with VARIANTS_DEFAULT is the king count examined, and there a board with zero
kings raises an unstructured TypeError (String.match returns null) instead of
the named king-count ValidationError. -/
theorem C2_amended_unknown_variant_skips_king_count :
    isValidFen fenKingless VARIANTS_UNKNOWN = .ok true ∧
    importOk fenKingless = true ∧
    isValidFen fenKingless VARIANTS_DEFAULT = .error (.typeError nullLengthMsg) := by decide

/-- C3 counterexample: in the starting position with White to move, square 81
(a7) holds a black pawn, a piece not owned by the side to move; yet
ChessPosition.move applies the move a7a6 successfully and mutates the board
(a6, previously empty, now holds the black pawn), instead of failing with no
mutation. -/
theorem C3_ce_opponent_piece_move_not_rejected :
    PieceColorD (bgetI (posOfFen FEN_START).board 81) ≠ (posOfFen FEN_START).color ∧
    bgetI (posOfFen FEN_START).board 71 = PIECES_EMPTY ∧
    (ChessPosition.move (posOfFen FEN_START) (81, 71)).toOption.map
      (fun q => bgetI q.board 71) = some 7 := by decide

/-- C4: from the FEN r3k2r/8/8/8/8/8/8/R3K2R w KQkq - 0 1, the white
kingside castle e1g1 (squares 25 to 27) puts the king (6) on g1 (27), the
rook (4) on f1 (26), empties e1 (25) and h1 (28), and clears both white
castling bits. -/
theorem C4_kingside_castle_moves_rook_and_clears_rights :
    (ChessPosition.move (posOfFen fenCastleBoth) (25, 27)).toOption.map
      (fun q => (bgetI q.board 27, bgetI q.board 26, bgetI q.board 25, bgetI q.board 28,
        q.castlingAvailability &&& CASTLEBITS_WKCA,
        q.castlingAvailability &&& CASTLEBITS_WQCA)) =
      some (6, 4, 0, 0, 0, 0) := by decide

/-- C5: from the FEN rnbqkbnr/ppp1pppp/8/3pP3/8/8/PPPP1PPP/RNBQKBNR w KQkq
d6 0 3, the move e5d6 (squares 65 to 74) is an en-passant capture: afterwards
d5 (64) is empty and a white pawn (1) stands on d6 (74). -/
theorem C5_en_passant_capture_removes_pawn :
    (ChessPosition.move (posOfFen fenEpCapture) (65, 74)).toOption.map
      (fun q => (bgetI q.board 64, bgetI q.board 74)) = some (0, 1) := by decide

/-- C6: applying e2e4 (squares 35 to 55) to the starting position sets the
en-passant target to e3 (square 45, file 4 rank index 2) and the halfmove
clock to 0; Black replying d7d5 (84 to 64) replaces the target with d6
(square 74, file 3 rank index 5). -/
theorem C6_double_step_creates_en_passant :
    (ChessPosition.move (posOfFen FEN_START) (35, 55)).toOption.map
      (fun q => (q.enPassantSquare, q.halfMoveClock)) = some (some 45, some 0) ∧
    ((ChessPosition.move (posOfFen FEN_START) (35, 55)).toOption.bind
      (fun q => (ChessPosition.move q (84, 64)).toOption)).map
      (fun q => q.enPassantSquare) = some (some 74) ∧
    FileRank2Square 4 2 = .ok 45 ∧ FileRank2Square 3 5 = .ok 74 := by decide

/-- C9 evaluated at the failing input: the FEN p8/7/8/8/8/8/8/8 w - - 0 1 is
malformed (its first rank expands to 9 cells, the second to 7), yet it passes
isValidFen because the row-sum check only tests the total 71; Fen2Board then
reaches file 8 while expanding the digit 8 of the first rank and the
coordinate Error thrown by FileRank2Square propagates out of importFen
uncaught, instead of a typed validation error value being returned. -/
theorem C9_importFen_propagates_unstructured_error :
    isValidFen (jsTrim fenBadRowSum) VARIANTS_UNKNOWN = .ok true ∧
    importFen fenBadRowSum =
      .error (.error ("Invalid file " ++ toString (8 : Int) ++ " or rank " ++
        toString (7 : Int))) := by decide

/-- C10 counterexample: the FEN 8/4p3/4N3/3P4/8/8/8/8 w - e6 0 1 passes
validation; getPossibleSquares on d5 (64), a white pawn, returns the
en-passant move (64, 75) whose destination e6 (75) holds a white knight (2),
a piece of the same color as the moving pawn. -/
theorem C10_ce_ep_move_onto_friendly_piece :
    importOk fenEpOccupied = true ∧
    (getPossibleSquares (posOfFen fenEpOccupied) 64).toOption = some [(64, 74), (64, 75)] ∧
    bgetI (posOfFen fenEpOccupied).board 75 = 2 ∧
    PieceColorD (bgetI (posOfFen fenEpOccupied).board 75) =
      PieceColorD (bgetI (posOfFen fenEpOccupied).board 64) := by decide

/-- C3 amended: for every Position and every move whose source square is
empty, ChessPosition.move fails with the descriptive error of the source (so
no mutated Position is produced; the check precedes every mutation).  A move
from a square holding a piece of the opposing color is not rejected (see the
counterexample). -/
theorem C3_amended_empty_source_fails :
    ∀ (p : Pos) (m : Int × Int), bgetI p.board m.1 = PIECES_EMPTY →
      ChessPosition.move p m =
        .error (.error ("No piece on Square " ++ toString m.1)) := by
  intro p m h
  simp [ChessPosition.move, h, throw, throwThe, MonadExceptOf.throw, Bind.bind, Except.bind]

theorem C3_amended_witness :
    bgetI (posOfFen FEN_START).board 55 = PIECES_EMPTY ∧
    ChessPosition.move (posOfFen FEN_START) (55, 65) =
      .error (.error ("No piece on Square " ++ toString (55 : Int))) :=
  ⟨by decide, C3_amended_empty_source_fails (posOfFen FEN_START) (55, 65) (by decide)⟩

/-- C7: on the board parsed from 8/8/8/8/3R4/8/8/8 w - - 0 1 (a lone white
rook on d4, square 54), isSquareAttacked reports true by White exactly on the
on-board squares of file d (index mod 10 equal to 4) or rank 4 (index div 10
equal to 5) other than 54 itself, and false on every other on-board square. -/
theorem C7_rook_attacks_rank_and_file :
    ∀ n : Nat, n < 120 → onBoardB n = true →
      isSquareAttacked rookD4Board n COLORS_WHITE =
        .ok ((n % 10 == 4 || n / 10 == 5) && n != 54) := by decide

theorem C7_rook_attacks_witness :
    isSquareAttacked rookD4Board 58 COLORS_WHITE =
      .ok ((58 % 10 == 4 || 58 / 10 == 5) && 58 != 54) :=
  C7_rook_attacks_rank_and_file 58 (by decide) (by decide)

/-- C8: FileRank2Square and Square2FileRank are mutually inverse: for files
and ranks in [0,7] the round trip through the 120 index returns the same
pair; for every legal on-board square the round trip through the file/rank
pair returns the same square; FileRank2Square fails exactly when the file or
the rank is the NONE sentinel 8; and Square2FileRank on an in-range index
fails exactly when the index maps to the off-board sentinel 65. -/
theorem C8_coordinate_inverse_laws :
    (∀ f : Nat, f ≤ 7 → ∀ r : Nat, r ≤ 7 →
      FileRank2Square f r = .ok (21 + f + r * 10) ∧
      Square2FileRank (21 + f + r * 10) = .ok ((f : Int), (r : Int))) ∧
    (∀ n : Nat, n < 120 → onBoardB n = true →
      (Square2FileRank n).bind (fun fr => FileRank2Square fr.1 fr.2) = .ok n) ∧
    (∀ f r : Int, exceptOk (FileRank2Square f r) = false ↔ f = 8 ∨ r = 8) ∧
    (∀ n : Nat, n < 120 →
      (exceptOk (Square2FileRank n) = false ↔ lookupD Sq120ToSq64 n 65 = 65)) := by
  refine ⟨by decide, by decide, ?_, by decide⟩
  intro f r
  by_cases h : f = 8 ∨ r = 8 <;> simp [FileRank2Square, h, exceptOk]

theorem C8_coordinate_inverse_witness :
    (FileRank2Square 3 4 = .ok (21 + 3 + 4 * 10) ∧
      Square2FileRank (21 + 3 + 4 * 10) = .ok (((3 : Nat) : Int), ((4 : Nat) : Int))) ∧
    (Square2FileRank ((64 : Nat) : Int)).bind (fun fr => FileRank2Square fr.1 fr.2) =
      .ok ((64 : Nat) : Int) ∧
    (exceptOk (FileRank2Square 8 0) = false ↔ (8 : Int) = 8 ∨ (0 : Int) = 8) ∧
    (exceptOk (Square2FileRank ((30 : Nat) : Int)) = false ↔ lookupD Sq120ToSq64 30 65 = 65) := by
  have h := C8_coordinate_inverse_laws
  exact ⟨by
      have := h.1 3 (by decide) 4 (by decide)
      simpa using this,
    h.2.1 64 (by decide) (by decide),
    h.2.2.1 8 0,
    h.2.2.2 30 (by decide)⟩

/-! ## Infrastructure for the move-generation soundness proof -/

theorem lookupD_lset_ne {α : Type} (l : List α) (n m : Nat) (v d : α) (h : m ≠ n) :
    lookupD (lset l n v) m d = lookupD l m d := by
  induction l generalizing n m with
  | nil => simp [lset]
  | cons a t ih =>
    cases n with
    | zero =>
      cases m with
      | zero => exact absurd rfl h
      | succ m => simp [lset, lookupD]
    | succ n =>
      cases m with
      | zero => simp [lset, lookupD]
      | succ m =>
        simp only [lset, lookupD]
        exact ih n m (fun e => h (by rw [e]))

theorem bgetI_bsetI_ne (b : List Nat) (i j : Int) (v : Nat) (h : j ≠ i) :
    bgetI (bsetI b i v) j = bgetI b j := by
  unfold bgetI bsetI
  by_cases hi : i < 0
  · simp [hi]
  · by_cases hj : j < 0
    · simp [hj]
    · simp only [hi, hj, if_false]
      exact lookupD_lset_ne b i.toNat j.toNat v 100 (by omega)

theorem INV_bsetI {b : List Nat} (hb : INV b) {w : Int} (hw : onBoardB w = true) (v : Nat) :
    INV (bsetI b w v) := by
  intro i hi
  have hne : i ≠ w := by
    intro e
    rw [e, hw] at hi
    cases hi
  rw [bgetI_bsetI_ne b w i v hne]
  exact hb i hi

theorem onBoard_fr_nat : ∀ f : Nat, f ≤ 7 → ∀ r : Nat, r ≤ 7 →
    onBoardB ((21 + f + r * 10 : Nat) : Int) = true := by decide

theorem onBoard_fr {f r : Int} (hf0 : 0 ≤ f) (hf7 : f ≤ 7) (hr0 : 0 ≤ r) (hr7 : r ≤ 7) :
    onBoardB (21 + f + r * 10) = true := by
  obtain ⟨fn, rfl⟩ := Int.eq_ofNat_of_zero_le hf0
  obtain ⟨rn, rfl⟩ := Int.eq_ofNat_of_zero_le hr0
  have h := onBoard_fr_nat fn (by exact_mod_cast hf7) rn (by exact_mod_cast hr7)
  push_cast at h
  exact h

theorem lookupD_replicate (n k v d : Nat) :
    lookupD (List.replicate n v) k d = if k < n then v else d := by
  induction n generalizing k with
  | zero => simp [lookupD, List.replicate]
  | succ n ih =>
    cases k with
    | zero => simp [List.replicate, lookupD]
    | succ k => simp [List.replicate, lookupD, ih, Nat.succ_lt_succ_iff]

theorem INV_replicate : INV (List.replicate 120 100) := by
  intro i _
  unfold bgetI
  by_cases hi : i < 0
  · simp [hi]
  · simp only [hi, if_false, lookupD_replicate]
    split <;> rfl

theorem parseIntChar_nonneg {c : Option Char} {d : Int} (h : parseIntChar c = some d) :
    0 ≤ d := by
  cases c with
  | none => exact absurd h (by simp [parseIntChar])
  | some c =>
    simp only [parseIntChar] at h
    split at h
    · injection h with h
      omega
    · cases h

theorem fillRun_INV : ∀ (k : Nat) (b : List Nat) (f r : Int) (b2 : List Nat),
    INV b → 0 ≤ f → f ≤ 8 → 0 ≤ r → r ≤ 7 →
    fillRun r b f k = .ok b2 → INV b2 := by
  intro k
  induction k with
  | zero =>
    intro b f r b2 hb _ _ _ _ h
    simp only [fillRun] at h
    injection h with h
    rwa [← h]
  | succ k ih =>
    intro b f r b2 hb hf0 hf8 hr0 hr7 h
    by_cases hf : f = 8
    · simp [fillRun, FileRank2Square, hf, Bind.bind, Except.bind] at h
    · have hcond : ¬(f = 8 ∨ r = 8) := by omega
      simp only [fillRun, FileRank2Square, if_neg hcond, Bind.bind, Except.bind] at h
      exact ih _ _ _ _ (INV_bsetI hb (onBoard_fr hf0 (by omega) hr0 hr7) 0)
        (by omega) (by omega) hr0 hr7 h

theorem rankScan_INV : ∀ (fuel : Nat) (chars : Str) (r : Int) (b : List Nat)
    (fi : Int) (cp : Nat) (b2 : List Nat),
    INV b → 0 ≤ fi → 0 ≤ r → r ≤ 7 →
    rankScan chars r fuel b fi cp = .ok b2 → INV b2 := by
  intro fuel
  induction fuel with
  | zero => intro chars r b fi cp b2 _ _ _ _ h; cases h
  | succ fuel ih =>
    intro chars r b fi cp b2 hb hfi0 hr0 hr7 h
    simp only [rankScan] at h
    by_cases hfi : fi ≤ 7
    · rw [if_pos hfi] at h
      cases hpc : parseIntChar (chars.get? cp) with
      | none =>
        rw [hpc] at h
        have hcond : ¬(fi = 8 ∨ r = 8) := by omega
        simp only [FileRank2Square, if_neg hcond, Bind.bind, Except.bind] at h
        exact ih _ _ _ _ _ _ (INV_bsetI hb (onBoard_fr hfi0 hfi hr0 hr7) _)
          (by omega) hr0 hr7 h
      | some d =>
        rw [hpc] at h
        simp only [Bind.bind] at h
        cases hfill : fillRun r b fi d.toNat with
        | error e => rw [hfill] at h; cases h
        | ok b3 =>
          rw [hfill] at h
          have hd0 : 0 ≤ d := parseIntChar_nonneg hpc
          have hb3 : INV b3 :=
            fillRun_INV d.toNat b fi r b3 hb hfi0 (by omega) hr0 hr7 hfill
          exact ih _ _ _ _ _ _ hb3 (by omega) hr0 hr7 h
    · rw [if_neg hfi] at h
      injection h with h
      rwa [← h]

theorem rankScan_idx8_error : ∀ (fuel : Nat) (chars : Str) (b : List Nat)
    (fi : Int) (cp : Nat),
    0 ≤ fi → fi ≤ 7 →
    ∃ e, rankScan chars 8 fuel b fi cp = .error e := by
  intro fuel
  induction fuel with
  | zero => intro chars b fi cp _ _; exact ⟨.error "model fuel exhausted", rfl⟩
  | succ fuel ih =>
    intro chars b fi cp hfi0 hfi7
    simp only [rankScan, if_pos hfi7]
    cases hpc : parseIntChar (chars.get? cp) with
    | none =>
      refine ⟨.error ("Invalid file " ++ toString fi ++ " or rank " ++ toString (8 : Int)), ?_⟩
      simp [FileRank2Square, Bind.bind, Except.bind]
    | some d =>
      have hd0 : 0 ≤ d := parseIntChar_nonneg hpc
      by_cases hd : d = 0
      · subst hd
        simp only [Bind.bind, Int.toNat_zero, fillRun, Except.bind]
        have := ih chars b (fi + 0) (cp + 1) (by omega) (by omega)
        simpa using this
      · have hk : ∃ k : Nat, d.toNat = k + 1 := ⟨d.toNat - 1, by omega⟩
        obtain ⟨k, hk⟩ := hk
        refine ⟨.error ("Invalid file " ++ toString fi ++ " or rank " ++ toString (8 : Int)), ?_⟩
        simp [hk, fillRun, FileRank2Square, Bind.bind, Except.bind]

theorem procRanks_INV : ∀ (ranks : List Str) (idx : Int) (b b2 : List Nat),
    INV b → 0 ≤ idx → idx ≤ 8 →
    procRanks ranks idx b = .ok b2 → INV b2 := by
  intro ranks
  induction ranks with
  | nil =>
    intro idx b b2 hb _ _ h
    injection h with h
    rwa [← h]
  | cons rk rest ih =>
    intro idx b b2 hb hidx0 hidx8 h
    simp only [procRanks, Bind.bind] at h
    by_cases hidx : idx ≤ 7
    · cases hscan : rankScan rk idx (rk.length + 10) b 0 0 with
      | error e => rw [hscan] at h; cases h
      | ok b3 =>
        rw [hscan] at h
        exact ih (idx + 1) b3 b2
          (rankScan_INV _ _ _ _ _ _ _ hb (by omega) hidx0 hidx hscan)
          (by omega) (by omega) h
    · have hidx8' : idx = 8 := by omega
      subst hidx8'
      obtain ⟨e, he⟩ := rankScan_idx8_error (rk.length + 10) rk b 0 0 (by omega) (by omega)
      rw [he] at h
      cases h

theorem Fen2Board_INV {s : Str} {b : List Nat} (h : Fen2Board s = .ok b) : INV b :=
  procRanks_INV _ 0 _ b INV_replicate (by omega) (by omega) h

theorem fileOfUpperChar_range {c : Char} {f : Int} (h : fileOfUpperChar c = some f) :
    0 ≤ f ∧ f ≤ 7 := by
  unfold fileOfUpperChar at h
  split_ifs at h <;> injection h with h <;> omega

theorem rankOfChar_range {c : Char} {r : Int} (h : rankOfChar c = some r) :
    0 ≤ r ∧ r ≤ 7 := by
  unfold rankOfChar at h
  split_ifs at h <;> injection h with h <;> omega

theorem Fen2EnPassant_epOK (s : Str) : epOK (Fen2EnPassant s) := by
  unfold Fen2EnPassant
  split
  · right; left; rfl
  · split
    · rename_i f r heqf heqr
      right; right
      refine ⟨21 + f + r * 10, rfl, ?_⟩
      have hf : 0 ≤ f ∧ f ≤ 7 := by
        rcases h0 : s.get? 0 with _ | c0
        · rw [h0] at heqf; cases heqf
        · rw [h0] at heqf; exact fileOfUpperChar_range heqf
      have hr : 0 ≤ r ∧ r ≤ 7 := by
        rcases h1 : s.get? 1 with _ | c1
        · rw [h1] at heqr; cases heqr
        · rw [h1] at heqr; exact rankOfChar_range heqr
      exact onBoard_fr hf.1 hf.2 hr.1 hr.2
    · left; rfl

theorem importFen_INV {fen : Str} {r : FenImportResult}
    (h : importFen fen = .ok (.inr r)) : INV r.board ∧ epOK r.enPassantSquare := by
  unfold importFen at h
  cases hv : isValidFen (jsTrim fen) VARIANTS_UNKNOWN with
  | error e => rw [hv] at h; injection h with h; cases h
  | ok v =>
    rw [hv] at h
    dsimp only at h
    cases hb : Fen2Board (lookupD (splitChar fen ' ') 0 []) with
    | error e => rw [hb] at h; cases h
    | ok b =>
      rw [hb] at h
      injection h with h
      injection h with h
      rw [← h]
      exact ⟨Fen2Board_INV hb, Fen2EnPassant_epOK _⟩

theorem piece_color_01 : ∀ p : Nat, 1 ≤ p → p ≤ 12 →
    PieceColorD p = 0 ∨ PieceColorD p = 1 := by decide

theorem oppColorE_of_ne_both {c : Nat} (h : c ≠ 2) :
    oppColorE c = .ok (if c = 0 then 1 else 0) := by
  unfold oppColorE COLORS_BOTH COLORS_WHITE COLORS_BLACK
  rw [if_neg h]

theorem onBoard_of_bget_ne {b : List Nat} (hb : INV b) {i : Int}
    (h : bgetI b i ≠ 100) : onBoardB i = true := by
  by_cases hob : onBoardB i = true
  · exact hob
  · exact absurd (hb i (by simpa using hob)) h

theorem prop_empty_dest {b : List Nat} {sq t : Int} (hb : INV b)
    (hpc : PieceColorD (bgetI b sq) = 0 ∨ PieceColorD (bgetI b sq) = 1)
    (ht : bgetI b t = 0) :
    onBoardB t = true ∧ PieceColorD (bgetI b t) ≠ PieceColorD (bgetI b sq) := by
  refine ⟨onBoard_of_bget_ne hb (by rw [ht]; omega), ?_⟩
  rw [ht]
  have : PieceColorD 0 = 2 := by decide
  omega

theorem prop_enemy_dest {b : List Nat} {sq t : Int} {cc : Nat} (hb : INV b)
    (hc : PieceColorD (bgetI b sq) = cc) (hcc : cc = 0 ∨ cc = 1)
    (ht : PieceColorD (bgetI b t) = (if cc = 0 then 1 else 0)) :
    onBoardB t = true ∧ PieceColorD (bgetI b t) ≠ PieceColorD (bgetI b sq) := by
  have h100 : PieceColorD 100 = 3 := by decide
  constructor
  · apply onBoard_of_bget_ne hb
    intro he
    rw [he, h100] at ht
    rcases hcc with h' | h' <;> rw [h'] at ht <;> simp at ht
  · rw [ht, hc]
    rcases hcc with h' | h' <;> rw [h'] <;> simp

theorem slideRay_mem : ∀ (fuel : Nat) (b : List Nat) (sq : Int) (oppc : Nat)
    (dir t : Int) (mv : Int × Int),
    mv ∈ slideRay b sq oppc dir fuel t →
    mv.1 = sq ∧ (bgetI b mv.2 = 0 ∨ PieceColorD (bgetI b mv.2) = oppc) := by
  intro fuel
  induction fuel with
  | zero => intro b sq oppc dir t mv h; cases h
  | succ fuel ih =>
    intro b sq oppc dir t mv h
    simp only [slideRay] at h
    split_ifs at h with h1 h2 h3
    · cases h
    · rcases List.mem_cons.mp h with he | ht
      · subst he
        exact ⟨rfl, Or.inl h2⟩
      · exact ih b sq oppc dir (t + dir) mv ht
    · rcases List.mem_singleton.mp h with he
      subst he
      exact ⟨rfl, Or.inr h3⟩
    · cases h

theorem slideAll_mem {b : List Nat} {sq : Int} {oppc : Nat} {dirs : List Int}
    {mv : Int × Int} (h : mv ∈ slideAll b sq oppc dirs) :
    mv.1 = sq ∧ (bgetI b mv.2 = 0 ∨ PieceColorD (bgetI b mv.2) = oppc) := by
  induction dirs with
  | nil => cases h
  | cons d rest ih =>
    simp only [slideAll, List.foldr] at h
    rcases List.mem_append.mp h with h' | h'
    · exact slideRay_mem 130 b sq oppc d (sq + d) mv h'
    · exact ih (by simpa [slideAll] using h')

theorem pawnCond1_mem {p : Pos} {sq mult : Int} {l : List (Int × Int)} {mv : Int × Int}
    (h : pawnCond1 p sq mult = .ok l) (hm : mv ∈ l) :
    mv = (sq, sq + mult * 10) ∧ bgetI p.board (sq + mult * 10) = 0 := by
  unfold pawnCond1 at h
  simp only [Bind.bind, Except.bind, pure, Except.pure] at h
  split_ifs at h with hc
  · split at h
    · cases h
    · injection h with h
      subst h
      simp only [Bool.and_eq_true, decide_eq_true_eq] at hc
      exact ⟨List.mem_singleton.mp hm, hc.2⟩
  · injection h with h
    subst h
    cases hm

theorem pawnCond2_mem {p : Pos} {sq mult : Int} {c : Nat} {sfr : Int × Int}
    {l : List (Int × Int)} {mv : Int × Int}
    (h : pawnCond2 p sq mult c sfr = .ok l) (hm : mv ∈ l) :
    mv = (sq, sq + mult * 20) ∧ bgetI p.board (sq + mult * 20) = 0 := by
  unfold pawnCond2 at h
  simp only [Bind.bind, Except.bind, pure, Except.pure] at h
  split_ifs at h with hc
  · split at h
    · cases h
    · injection h with h
      subst h
      simp only [Bool.and_eq_true, decide_eq_true_eq] at hc
      exact ⟨List.mem_singleton.mp hm, hc.2⟩
  · injection h with h
    subst h
    cases hm

theorem pawnCapture_mem {p : Pos} {sq mult off : Int} {oppc : Nat}
    {l : List (Int × Int)} {mv : Int × Int}
    (h : pawnCapture p sq mult off oppc = .ok l) (hm : mv ∈ l) :
    mv = (sq, sq + mult * off) ∧ PieceColorD (bgetI p.board (sq + mult * off)) = oppc := by
  unfold pawnCapture at h
  simp only [Bind.bind, Except.bind, pure, Except.pure] at h
  split_ifs at h with hc
  · split at h
    · cases h
    · injection h with h
      subst h
      simp only [Bool.and_eq_true, decide_eq_true_eq] at hc
      exact ⟨List.mem_singleton.mp hm, hc.2⟩
  · injection h with h
    subst h
    cases hm

theorem pawnEp_mem {p : Pos} {sq : Int} {c oppc : Nat} {l : List (Int × Int)}
    {mv : Int × Int}
    (h : pawnEp p sq c oppc = .ok l) (hm : mv ∈ l) :
    ∃ ep, mv = (sq, ep) ∧ p.enPassantSquare = some ep ∧ ep ≠ 0 := by
  unfold pawnEp at h
  simp only [Bind.bind, Except.bind, pure, Except.pure] at h
  split at h
  · split at h
    · cases h
    · injection h with h
      subst h
      cases hm
  · rename_i ep heps
    split at h
    · rename_i hep0
      split at h
      · cases h
      rename_i epfr hepfr
      split at h
      · cases h
      rename_i pfr hpfr
      split at h
      · rename_i hcr
        -- the captureSquare choice (an if on the color) then the capture test
        split at h <;>
          [skip; skip] <;>
          (split at h
           · injection h with h
             subst h
             exact ⟨ep, List.mem_singleton.mp hm, heps, hep0⟩
           · injection h with h
             subst h
             cases hm)
      · injection h with h
        subst h
        cases hm
    · injection h with h
      subst h
      cases hm

theorem pawnMoves_mem {p : Pos} {sq : Int} {piece : Nat} {ms : List (Int × Int)}
    {mv : Int × Int}
    (hb : INV p.board) (hep : epOK p.enPassantSquare)
    (hpiece : bgetI p.board sq = piece)
    (hc01 : PieceColorD piece = 0 ∨ PieceColorD piece = 1)
    (h : pawnMoves p sq piece = .ok ms) (hm : mv ∈ ms) :
    mv.1 = sq ∧ onBoardB mv.2 = true ∧
      (PieceColorD (bgetI p.board mv.2) ≠ PieceColorD (bgetI p.board sq) ∨
        p.enPassantSquare = some mv.2) := by
  have hcne : PieceColorD piece ≠ 2 := by rcases hc01 with h' | h' <;> omega
  have hc01' : PieceColorD (bgetI p.board sq) = 0 ∨ PieceColorD (bgetI p.board sq) = 1 := by
    rw [hpiece]; exact hc01
  unfold pawnMoves at h
  simp only [oppColorE_of_ne_both hcne, Bind.bind, Except.bind, pure, Except.pure] at h
  split at h
  · cases h
  rename_i a1 hA1
  split at h
  · cases h
  rename_i sfr hsfr
  split at h
  · cases h
  rename_i a2 hA2
  split at h
  · cases h
  rename_i a3 hA3
  split at h
  · cases h
  rename_i a4 hA4
  split at h
  · cases h
  rename_i a5 hA5
  injection h with h
  subst h
  rcases List.mem_append.mp hm with hmA | hm5
  · rcases List.mem_append.mp hmA with hmB | hm4
    · rcases List.mem_append.mp hmB with hmC | hm3
      · rcases List.mem_append.mp hmC with hm1 | hm2
        · obtain ⟨he, hempty⟩ := pawnCond1_mem hA1 hm1
          subst he
          have hd := prop_empty_dest hb hc01' hempty
          exact ⟨rfl, hd.1, Or.inl hd.2⟩
        · obtain ⟨he, hempty⟩ := pawnCond2_mem hA2 hm2
          subst he
          have hd := prop_empty_dest hb hc01' hempty
          exact ⟨rfl, hd.1, Or.inl hd.2⟩
      · obtain ⟨he, hcol⟩ := pawnCapture_mem hA3 hm3
        subst he
        have hd := prop_enemy_dest hb (show PieceColorD (bgetI p.board sq) = PieceColorD piece by
          rw [hpiece]) hc01 hcol
        exact ⟨rfl, hd.1, Or.inl hd.2⟩
    · obtain ⟨he, hcol⟩ := pawnCapture_mem hA4 hm4
      subst he
      have hd := prop_enemy_dest hb (show PieceColorD (bgetI p.board sq) = PieceColorD piece by
        rw [hpiece]) hc01 hcol
      exact ⟨rfl, hd.1, Or.inl hd.2⟩
  · obtain ⟨ep, he, heps, hep0⟩ := pawnEp_mem hA5 hm5
    subst he
    refine ⟨rfl, ?_, Or.inr heps⟩
    rcases hep with h' | h' | ⟨v, hv, hvb⟩
    · rw [heps] at h'
      cases h'
    · rw [heps] at h'
      injection h' with h'
      exact absurd h' hep0
    · rw [heps] at hv
      injection hv with hv
      subst hv
      exact hvb

theorem castleMoves_mem {p : Pos} {sq : Int} {c : Nat} {l : List (Int × Int)}
    {mv : Int × Int}
    (h : castleMoves p sq c = .ok l) (hm : mv ∈ l) :
    mv.1 = sq ∧ onBoardB mv.2 = true ∧ bgetI p.board mv.2 = 0 := by
  unfold castleMoves at h
  by_cases hc : c = COLORS_WHITE
  · rw [if_pos hc] at h
    simp only [show FileRank2Square 5 0 = Except.ok (ε := JsErr) 26 from by decide,
      show FileRank2Square 6 0 = Except.ok (ε := JsErr) 27 from by decide,
      show FileRank2Square 7 0 = Except.ok (ε := JsErr) 28 from by decide,
      show FileRank2Square 1 0 = Except.ok (ε := JsErr) 22 from by decide,
      show FileRank2Square 2 0 = Except.ok (ε := JsErr) 23 from by decide,
      show FileRank2Square 3 0 = Except.ok (ε := JsErr) 24 from by decide,
      show FileRank2Square 0 0 = Except.ok (ε := JsErr) 21 from by decide,
      Bind.bind, Except.bind, pure, Except.pure] at h
    split_ifs at h with hks hqs hqs
    · injection h with h
      subst h
      simp only [Bool.and_eq_true, decide_eq_true_eq] at hks hqs
      rcases List.mem_append.mp hm with hmk | hmq
      · rcases List.mem_singleton.mp hmk with he
        subst he
        exact ⟨rfl, show onBoardB 27 = true by decide, hks.1.1.1.1.2⟩
      · rcases List.mem_singleton.mp hmq with he
        subst he
        exact ⟨rfl, show onBoardB 23 = true by decide, hqs.1.1.1.1.1.2⟩
    · injection h with h
      subst h
      simp only [Bool.and_eq_true, decide_eq_true_eq] at hks
      rcases List.mem_singleton.mp (by simpa using hm) with he
      subst he
      exact ⟨rfl, show onBoardB 27 = true by decide, hks.1.1.1.1.2⟩
    · injection h with h
      subst h
      simp only [Bool.and_eq_true, decide_eq_true_eq] at hqs
      rcases List.mem_singleton.mp (by simpa using hm) with he
      subst he
      exact ⟨rfl, show onBoardB 23 = true by decide, hqs.1.1.1.1.1.2⟩
    · injection h with h
      subst h
      simp at hm
  · rw [if_neg hc] at h
    simp only [show FileRank2Square 5 7 = Except.ok (ε := JsErr) 96 from by decide,
      show FileRank2Square 6 7 = Except.ok (ε := JsErr) 97 from by decide,
      show FileRank2Square 7 7 = Except.ok (ε := JsErr) 98 from by decide,
      show FileRank2Square 1 7 = Except.ok (ε := JsErr) 92 from by decide,
      show FileRank2Square 2 7 = Except.ok (ε := JsErr) 93 from by decide,
      show FileRank2Square 3 7 = Except.ok (ε := JsErr) 94 from by decide,
      show FileRank2Square 0 7 = Except.ok (ε := JsErr) 91 from by decide,
      Bind.bind, Except.bind, pure, Except.pure] at h
    split_ifs at h with hks hqs hqs
    · injection h with h
      subst h
      simp only [Bool.and_eq_true, decide_eq_true_eq] at hks hqs
      rcases List.mem_append.mp hm with hmk | hmq
      · rcases List.mem_singleton.mp hmk with he
        subst he
        exact ⟨rfl, show onBoardB 97 = true by decide, hks.1.1.1.1.2⟩
      · rcases List.mem_singleton.mp hmq with he
        subst he
        exact ⟨rfl, show onBoardB 93 = true by decide, hqs.1.1.1.1.1.2⟩
    · injection h with h
      subst h
      simp only [Bool.and_eq_true, decide_eq_true_eq] at hks
      rcases List.mem_singleton.mp (by simpa using hm) with he
      subst he
      exact ⟨rfl, show onBoardB 97 = true by decide, hks.1.1.1.1.2⟩
    · injection h with h
      subst h
      simp only [Bool.and_eq_true, decide_eq_true_eq] at hqs
      rcases List.mem_singleton.mp (by simpa using hm) with he
      subst he
      exact ⟨rfl, show onBoardB 93 = true by decide, hqs.1.1.1.1.1.2⟩
    · injection h with h
      subst h
      simp at hm

theorem getPossibleSquares_mem {p : Pos} {sq : Int} {ms : List (Int × Int)} {mv : Int × Int}
    (hb : INV p.board) (hep : epOK p.enPassantSquare)
    (hlo : 1 ≤ bgetI p.board sq) (hhi : bgetI p.board sq ≤ 12)
    (h : getPossibleSquares p sq = .ok ms) (hm : mv ∈ ms) :
    mv.1 = sq ∧ onBoardB mv.2 = true ∧
      (PieceColorD (bgetI p.board mv.2) ≠ PieceColorD (bgetI p.board sq) ∨
        (PiecePawnD (bgetI p.board sq) = true ∧ p.enPassantSquare = some mv.2)) := by
  have hc01 := piece_color_01 _ hlo hhi
  have hcne : PieceColorD (bgetI p.board sq) ≠ 2 := by rcases hc01 with h' | h' <;> omega
  have hempty2 : PieceColorD 0 = 2 := by decide
  have hslide : ∀ dirs : List Int,
      mv ∈ slideAll p.board sq (if PieceColorD (bgetI p.board sq) = 0 then 1 else 0) dirs →
      mv.1 = sq ∧ onBoardB mv.2 = true ∧
        PieceColorD (bgetI p.board mv.2) ≠ PieceColorD (bgetI p.board sq) := by
    intro dirs hm'
    obtain ⟨ha, hd⟩ := slideAll_mem hm'
    rcases hd with hd | hd
    · have h2 := prop_empty_dest hb hc01 hd
      exact ⟨ha, h2.1, h2.2⟩
    · have h2 := prop_enemy_dest hb rfl hc01 hd
      exact ⟨ha, h2.1, h2.2⟩
  unfold getPossibleSquares at h
  dsimp only at h
  split_ifs at h with hoff hemp hpawn hkn hbq hrq hq hking
  · -- pawn
    obtain ⟨ha, hob, hc⟩ := pawnMoves_mem hb hep rfl hc01 h hm
    exact ⟨ha, hob, hc.imp id (fun he => ⟨hpawn, he⟩)⟩
  · -- knight
    simp only [oppColorE_of_ne_both hcne, Bind.bind, Except.bind, pure, Except.pure,
      Except.ok.injEq] at h
    subst h
    obtain ⟨dir, hdirmem, he⟩ := List.mem_map.mp hm
    subst he
    have hcond := (List.mem_filter.mp hdirmem).2
    simp only [Bool.or_eq_true, decide_eq_true_eq] at hcond
    rcases hcond with hc | hc
    · have h2 := prop_empty_dest hb hc01 hc
      exact ⟨rfl, h2.1, Or.inl h2.2⟩
    · have h2 := prop_enemy_dest hb rfl hc01 hc
      exact ⟨rfl, h2.1, Or.inl h2.2⟩
  · -- bishop
    simp only [oppColorE_of_ne_both hcne, Bind.bind, Except.bind, pure, Except.pure,
      Except.ok.injEq] at h
    subst h
    have h2 := hslide BishopDirections hm
    exact ⟨h2.1, h2.2.1, Or.inl h2.2.2⟩
  · -- rook
    simp only [oppColorE_of_ne_both hcne, Bind.bind, Except.bind, pure, Except.pure,
      Except.ok.injEq] at h
    subst h
    have h2 := hslide RookDirections hm
    exact ⟨h2.1, h2.2.1, Or.inl h2.2.2⟩
  · -- queen
    simp only [oppColorE_of_ne_both hcne, Bind.bind, Except.bind, pure, Except.pure,
      Except.ok.injEq] at h
    subst h
    rcases List.mem_append.mp hm with hm' | hm'
    · have h2 := hslide RookDirections hm'
      exact ⟨h2.1, h2.2.1, Or.inl h2.2.2⟩
    · have h2 := hslide BishopDirections hm'
      exact ⟨h2.1, h2.2.1, Or.inl h2.2.2⟩
  · -- king
    simp only [oppColorE_of_ne_both hcne, Bind.bind, Except.bind, pure, Except.pure] at h
    split at h
    · cases h
    rename_i cast hcast
    injection h with h
    subst h
    rcases List.mem_append.mp hm with hm' | hm'
    · obtain ⟨dir, hdirmem, he⟩ := List.mem_map.mp hm'
      subst he
      have hcond := (List.mem_filter.mp hdirmem).2
      simp only [Bool.and_eq_true, Bool.or_eq_true, decide_eq_true_eq] at hcond
      rcases hcond.2 with hc | hc
      · have h2 := prop_empty_dest hb hc01 hc
        exact ⟨rfl, h2.1, Or.inl h2.2⟩
      · have h2 := prop_enemy_dest hb rfl hc01 hc
        exact ⟨rfl, h2.1, Or.inl h2.2⟩
    · obtain ⟨ha, hob, hzero⟩ := castleMoves_mem hcast hm'
      refine ⟨ha, hob, Or.inl ?_⟩
      rw [hzero, hempty2]
      rcases hc01 with h' | h' <;> omega
  · -- no piece class matched
    injection h with h
    subst h
    cases hm

/-- C10 amended: for every Position parsed from a valid FEN (importFen
succeeded) and every on-board square holding a piece, every move pair
returned by getPossibleSquares has from equal to the queried square, an
on-board destination, and - except for the en-passant capture onto the
Position's en-passant square, whose occupancy the code never checks (see the
counterexample) - a destination that does not hold a piece of the moving
piece's color. -/
theorem C10_amended_movegen_sound :
    ∀ (fen : Str) (r : FenImportResult) (sq : Int) (ms : List (Int × Int)) (mv : Int × Int),
      importFen fen = .ok (.inr r) →
      1 ≤ bgetI r.board sq → bgetI r.board sq ≤ 12 →
      getPossibleSquares (toPos r) sq = .ok ms →
      mv ∈ ms →
      mv.1 = sq ∧ onBoardB mv.2 = true ∧
        (PieceColorD (bgetI r.board mv.2) ≠ PieceColorD (bgetI r.board sq) ∨
          (PiecePawnD (bgetI r.board sq) = true ∧ r.enPassantSquare = some mv.2)) := by
  intro fen r sq ms mv himp hlo hhi h hm
  obtain ⟨hb, hep⟩ := importFen_INV himp
  exact getPossibleSquares_mem (p := toPos r) hb hep hlo hhi h hm

/-- The parse of the starting FEN, used to instantiate the soundness theorem
at a concrete input (the fallback branch is not reached). -/
def rStart : FenImportResult :=
  match importFen FEN_START with
  | .ok (.inr r) => r
  | _ => { board := [], color := 0, castlingAvailability := 0, enPassantSquare := some 0,
           halfMoveClock := some 0, fullMoveNumber := some 0 }

theorem C10_amended_witness :
    ((35 : Int), (45 : Int)).1 = 35 ∧ onBoardB ((35 : Int), (45 : Int)).2 = true ∧
      (PieceColorD (bgetI rStart.board 45) ≠ PieceColorD (bgetI rStart.board 35) ∨
        (PiecePawnD (bgetI rStart.board 35) = true ∧ rStart.enPassantSquare = some 45)) :=
  C10_amended_movegen_sound FEN_START rStart 35 [((35 : Int), (45 : Int)), (35, 55)] (35, 45)
    (by decide) (by decide) (by decide) (by decide) (by decide)
